import Mathlib

/-!
Verification development for the parkmonitor forecast service
(src/forecast/src: data_loader.py, features.py, models.py, server.py,
predict.py, train.py).

The pandas dataframes of features.py / models.py are embedded
column-oriented: a frame is an association list from column names to lists
of cells, where a cell is missing (NaN), a rational number (float values;
exact arithmetic stands in for IEEE arithmetic), an exact real (values of
transcendental functions), a string, or a timestamp.  A pandas timestamp is
embedded by the bundle of calendar fields its `dt` accessors expose.
Fallible operations (pandas raises KeyError on a missing column) return
Option.  The sqlite tables of data_loader.py are embedded as lists of row
records; ISO-8601 timestamp strings compare lexicographically, which agrees
with chronological order, so timestamps are embedded as naturals.
-/

namespace ParkMonitor

/-- Calendar fields exposed by the pandas `dt` accessors used in
`FeatureEngineer.add_temporal_features` (`hour`, `dayofweek`, `day`,
`month`, `year`, `isocalendar().week`). -/
structure PdTimestamp where
  hour : ℕ
  dayofweek : ℕ
  day : ℕ
  month : ℕ
  year : ℕ
  isoweek : ℕ
deriving DecidableEq, Repr

/-- A dataframe cell: NaN, a float stored exactly as a rational, an exact
real (used for values of sin/cos/sqrt), a string, or a timestamp. -/
inductive Cell where
  | nan : Cell
  | num (q : ℚ) : Cell
  | real (x : ℝ) : Cell
  | text (s : String) : Cell
  | time (t : PdTimestamp) : Cell

/-- A dataframe column. -/
abbrev Col := List Cell

/-- A dataframe: ordered association list from column names to columns,
mirroring the ordered columns of a pandas DataFrame. -/
abbrev DataFrame := List (String × Col)

/-- Column lookup, `df[name]`; `none` models the KeyError on a missing
column.  Column names of a pandas frame are unique, so first match. -/
def getCol? : DataFrame → String → Option Col
  | [], _ => none
  | (m, c) :: rest, n => if m = n then some c else getCol? rest n

/-- Column assignment `df[name] = v`: replaces the column in place when the
name is present, otherwise appends a new column at the end. -/
def setCol : DataFrame → String → Col → DataFrame
  | [], n, v => [(n, v)]
  | (m, c) :: rest, n, v =>
      if m = n then (n, v) :: rest else (m, c) :: setCol rest n v

/-- The column names of a frame, in order. -/
def colNames (df : DataFrame) : List String := df.map Prod.fst

/-! ### Confidence band (server.py, get_forecast / get_all_forecasts)

`confidence_low = max(0, prediction - 10)` and
`confidence_high = min(100, prediction + 10)`. -/

/-- server.py line 289 / 355: `confidence_low = max(0, prediction - 10)`. -/
def confidenceLow (p : ℚ) : ℚ := max 0 (p - 10)

/-- server.py line 290 / 356: `confidence_high = min(100, prediction + 10)`. -/
def confidenceHigh (p : ℚ) : ℚ := min 100 (p + 10)

/-- A `Forecast` response row as built by the handlers (server.py lines
292-299 and 350-359): point prediction with the clamped ±10 band. -/
structure ForecastOut where
  lot_id : String
  name : String
  predicted_occupancy_rate : ℚ
  confidence_low : ℚ
  confidence_high : ℚ
deriving DecidableEq, Repr

/-- Build one `Forecast` from a lot id, a lot name and a model prediction,
as both forecast handlers do. -/
def mkForecast (lotId lotName : String) (p : ℚ) : ForecastOut :=
  { lot_id := lotId
    name := lotName
    predicted_occupancy_rate := p
    confidence_low := confidenceLow p
    confidence_high := confidenceHigh p }

/-- server.py get_all_forecasts, lines 347-359: one `Forecast` per
(lot_id, name, prediction) triple of the latest row per lot. -/
def buildForecasts (rows : List (String × String × ℚ)) : List ForecastOut :=
  rows.map fun r => mkForecast r.1 r.2.1 r.2.2

/-! ### Model reloading (server.py, load_model / check_and_reload_model) -/

/-- A model file on disk: its mtime and its (opaque) pickled content. -/
structure ModelFile where
  mtime : ℚ
  blob : ℕ
deriving DecidableEq, Repr

/-- The file system visible to the server, as a finite map from paths to
model files; `none` means the path does not exist. -/
abbrev FileSys := List (String × ModelFile)

/-- `path.exists()` / `path.stat()`. -/
def statFile (fs : FileSys) (p : String) : Option ModelFile :=
  (fs.find? fun q => q.1 = p).map Prod.snd

/-- The mutable server globals of server.py lines 69-72: `model_path`,
`model_last_modified` and the loaded `forecaster` (its blob). -/
structure ServerState where
  modelPath : Option String
  modelLastModified : Option ℚ
  forecaster : Option ℕ
deriving DecidableEq, Repr

/-- The constant model path of server.py line 79. -/
def defaultModelPath : String := "models/parking_forecaster_xgboost.pkl"

/-- server.py `load_model`, lines 75-87: sets `model_path` to the constant
path, raises when the file is missing (the caller catches, leaving the
partial update), otherwise loads the model and records the file's mtime. -/
def load_model (fs : FileSys) (s : ServerState) : ServerState :=
  let s1 : ServerState := { s with modelPath := some defaultModelPath }
  match statFile fs defaultModelPath with
  | none => s1
  | some f =>
      { modelPath := some defaultModelPath
        modelLastModified := some f.mtime
        forecaster := some f.blob }

/-- server.py `check_and_reload_model`, lines 90-105: returns unchanged
when no path is recorded or the file does not exist; reloads via
`load_model` when no mtime is recorded or the current mtime is strictly
greater than the recorded one; otherwise leaves the state unchanged. -/
def check_and_reload_model (fs : FileSys) (s : ServerState) : ServerState :=
  match s.modelPath with
  | none => s
  | some p =>
      match statFile fs p with
      | none => s
      | some f =>
          match s.modelLastModified with
          | none => load_model fs s
          | some t => if t < f.mtime then load_model fs s else s

/-! ### Data loading (data_loader.py)

Rows of the sqlite tables `parking_readings` and `parking_lots`.
Timestamps appear in the database as ISO-8601 strings, whose lexicographic
order (used by the SQL comparisons and ORDER BY) agrees with chronological
order; they are embedded as naturals. -/

/-- A row of `parking_readings`. -/
structure Reading where
  id : ℕ
  lot_id : String
  timestamp : ℕ
  free : ℚ
deriving DecidableEq, Repr

/-- A row of `parking_lots` (the columns load_combined_data selects). -/
structure ParkingLot where
  id : String
  name : String
  total : ℚ
  lot_type : String
  latitude : ℚ
  longitude : ℚ
deriving DecidableEq, Repr

/-- The database. -/
structure ParkingDb where
  lots : List ParkingLot
  readings : List Reading

/-- The WHERE clause built by `ParkingDataLoader.load_readings` (lines
45-56).  Each filter is added only when its argument is truthy: in
particular `if lot_ids:` skips the `lot_id IN (...)` clause when the list
is empty.  The falsy empty-string case of the date filters coincides with
`none` here. -/
def matchesFilters (startDate endDate : Option ℕ) (lotIds : Option (List String))
    (r : Reading) : Bool :=
  (match startDate with
   | none => true
   | some t => t ≤ r.timestamp) &&
  (match endDate with
   | none => true
   | some t => r.timestamp ≤ t) &&
  (match lotIds with
   | none => true
   | some l => if l.isEmpty then true else l.contains r.lot_id)

/-- Comparison used by `ORDER BY timestamp`. -/
def tsLe (a b : Reading) : Prop := a.timestamp ≤ b.timestamp

instance : DecidableRel tsLe := fun a b => Nat.decLe a.timestamp b.timestamp

instance : IsTotal Reading tsLe := ⟨fun a b => Nat.le_total a.timestamp b.timestamp⟩

instance : IsTrans Reading tsLe := ⟨fun _ _ _ h h2 => Nat.le_trans h h2⟩

/-- `ParkingDataLoader.load_readings` (lines 25-67): the rows of
`parking_readings` passing the WHERE clause, in timestamp order.  SQL
leaves the relative order of equal keys open; insertion sort realises one
such order. -/
def load_readings (db : ParkingDb) (startDate endDate : Option ℕ)
    (lotIds : Option (List String)) : List Reading :=
  List.insertionSort tsLe (db.readings.filter (matchesFilters startDate endDate lotIds))

/-- `ParkingDataLoader.load_parking_lots` (lines 18-23). -/
def load_parking_lots (db : ParkingDb) : List ParkingLot := db.lots

/-- A row of the merged frame built by joining readings with lots and
adding the `occupied` / `occupancy_rate` columns. -/
structure MergedRow where
  id : ℕ
  lot_id : String
  timestamp : ℕ
  free : ℚ
  name : String
  total : ℚ
  lot_type : String
  latitude : ℚ
  longitude : ℚ
  occupied : ℚ
  occupancy_rate : ℚ
deriving DecidableEq, Repr

/-- The inner join `readings.merge(lots, left_on="lot_id", right_on="id")`
followed by `occupied = total - free` and
`occupancy_rate = occupied / total * 100`.  This pairing-plus-formula is
shared verbatim by `load_combined_data` (data_loader.py lines 79-88), the
`/current` handler (server.py lines 203-210), the `/forecast/{lot_id}`
handler (server.py lines 256-263) and `make_predictions` (predict.py lines
46-52).  An inner merge keeps the left (reading) order and pairs each
reading with every lot of matching id. -/
def mergeReadingsLots (rs : List Reading) (ls : List ParkingLot) : List MergedRow :=
  rs.flatMap fun r =>
    (ls.filter fun l => l.id = r.lot_id).map fun l =>
      { id := r.id
        lot_id := r.lot_id
        timestamp := r.timestamp
        free := r.free
        name := l.name
        total := l.total
        lot_type := l.lot_type
        latitude := l.latitude
        longitude := l.longitude
        occupied := l.total - r.free
        occupancy_rate := (l.total - r.free) / l.total * 100 }

/-- `ParkingDataLoader.load_combined_data` (lines 69-90). -/
def load_combined_data (db : ParkingDb) : List MergedRow :=
  mergeReadingsLots (load_readings db none none none) (load_parking_lots db)

/-! ### Feature engineering (features.py)

Cell-level helpers first.  Numeric pandas columns hold floats (here `num`
rationals) and NaN; string columns hold `text` cells; the timestamp column
holds `time` cells. -/

/-- The numeric value of a cell, if any.  Real-valued cells (outputs of the
trig encodings) are never fed back into lag/rolling statistics in this
code base, so only `num` cells count as observations. -/
def Cell.toQ? : Cell → Option ℚ
  | Cell.num q => some q
  | _ => none

/-- Whether a cell is a timestamp. -/
def Cell.isTime : Cell → Bool
  | Cell.time _ => true
  | _ => false

/-- Whether a cell is NaN (`notna` is its negation). -/
def Cell.isNan : Cell → Bool
  | Cell.nan => true
  | _ => false

/-- `pd.api.types.is_datetime64_any_dtype`: the column is datetime-typed.
A datetime64 column holds only timestamps (NaT is not produced by this
pipeline). -/
def isDatetimeCol (c : Col) : Bool := c.all Cell.isTime

/-- The group key of a cell for `groupby(group_col)`: the pipeline groups
by the string-valued `lot_id` column.  Cells that carry no string key
(e.g. NaN) form no group — pandas drops NaN keys — and are mapped to
`none`. -/
def cellKey : Cell → Option String
  | Cell.text s => some s
  | _ => none

/-- The group key of row `i` in group column `g`. -/
def keyAt (g : Col) (i : ℕ) : Option String := cellKey (g.getD i Cell.nan)

/-- `fillna(0)` on one cell. -/
def fillCell : Cell → Cell
  | Cell.nan => Cell.num 0
  | c => c

/-- `fillna(0)` on a frame. -/
def fillna0 (df : DataFrame) : DataFrame :=
  df.map fun p => (p.1, p.2.map fillCell)

/-- A calendar component column, e.g. `df[timestamp_col].dt.hour`: numeric
value of the accessor on timestamp cells (the `.dt` accessor is only
reached on datetime-typed columns). -/
def tsMap (f : PdTimestamp → ℕ) : Cell → Cell
  | Cell.time t => Cell.num (f t)
  | _ => Cell.nan

/-- `np.sin(2 * np.pi * x / period)` on one cell; sin of NaN is NaN. -/
noncomputable def trigSin (period : ℕ) : Cell → Cell
  | Cell.num q => Cell.real (Real.sin (2 * Real.pi * (q : ℝ) / (period : ℝ)))
  | _ => Cell.nan

/-- `np.cos(2 * np.pi * x / period)` on one cell; cos of NaN is NaN. -/
noncomputable def trigCos (period : ℕ) : Cell → Cell
  | Cell.num q => Cell.real (Real.cos (2 * Real.pi * (q : ℝ) / (period : ℝ)))
  | _ => Cell.nan

/-- `df["day_of_week"].isin([5, 6]).astype(int)` on one cell: comparisons
with NaN are false, so NaN maps to 0. -/
def weekendCell : Cell → Cell
  | Cell.num q => Cell.num (if q = 5 ∨ q = 6 then 1 else 0)
  | _ => Cell.num 0

/-- `((df["hour"] >= 8) & (df["hour"] <= 18)).astype(int)` on one cell. -/
def businessHoursCell : Cell → Cell
  | Cell.num q => Cell.num (if 8 ≤ q ∧ q ≤ 18 then 1 else 0)
  | _ => Cell.num 0

/-- `(((hour >= 7) & (hour <= 9)) | ((hour >= 16) & (hour <= 19)))
.astype(int)` on one cell. -/
def rushHourCell : Cell → Cell
  | Cell.num q => Cell.num (if (7 ≤ q ∧ q ≤ 9) ∨ (16 ≤ q ∧ q ≤ 19) then 1 else 0)
  | _ => Cell.num 0

/-- The sequence of column assignments performed by
`FeatureEngineer.add_temporal_features` (features.py lines 31-53), in
source order, given the timestamp column `ts`.  The six trig columns and
the three boolean columns read the calendar columns assigned just above
them, whose cell lists they are computed from here. -/
noncomputable def temporalWrites (ts : Col) : List (String × Col) :=
  [("hour", ts.map (tsMap PdTimestamp.hour)),
   ("day_of_week", ts.map (tsMap PdTimestamp.dayofweek)),
   ("day_of_month", ts.map (tsMap PdTimestamp.day)),
   ("month", ts.map (tsMap PdTimestamp.month)),
   ("year", ts.map (tsMap PdTimestamp.year)),
   ("week_of_year", ts.map (tsMap PdTimestamp.isoweek)),
   ("hour_sin", (ts.map (tsMap PdTimestamp.hour)).map (trigSin 24)),
   ("hour_cos", (ts.map (tsMap PdTimestamp.hour)).map (trigCos 24)),
   ("day_sin", (ts.map (tsMap PdTimestamp.dayofweek)).map (trigSin 7)),
   ("day_cos", (ts.map (tsMap PdTimestamp.dayofweek)).map (trigCos 7)),
   ("month_sin", (ts.map (tsMap PdTimestamp.month)).map (trigSin 12)),
   ("month_cos", (ts.map (tsMap PdTimestamp.month)).map (trigCos 12)),
   ("is_weekend", (ts.map (tsMap PdTimestamp.dayofweek)).map weekendCell),
   ("is_business_hours", (ts.map (tsMap PdTimestamp.hour)).map businessHoursCell),
   ("is_rush_hour", (ts.map (tsMap PdTimestamp.hour)).map rushHourCell)]

/-- Perform a sequence of column assignments in order. -/
def setCols (df : DataFrame) (ws : List (String × Col)) : DataFrame :=
  ws.foldl (fun d p => setCol d p.1 p.2) df

/-- `FeatureEngineer.add_temporal_features` (features.py lines 11-55).
The source first coerces the timestamp column with `pd.to_datetime` when it
is not datetime-typed; on datetime-typed columns — the only case arising in
this pipeline, since `load_readings` converts timestamps — that branch is
the identity and is not modelled further (theorems assume a datetime-typed
timestamp column). -/
noncomputable def addTemporalFeatures (df : DataFrame) (tcol : String) :
    Option DataFrame :=
  (getCol? df tcol).map fun ts => setCols df (temporalWrites ts)

/-- The column names `add_temporal_features` assigns, in assignment
order. -/
def temporalNames : List String :=
  ["hour", "day_of_week", "day_of_month", "month", "year", "week_of_year",
   "hour_sin", "hour_cos", "day_sin", "day_cos", "month_sin", "month_cos",
   "is_weekend", "is_business_hours", "is_rush_hour"]

/-! #### Grouped shifts and rolling windows -/

/-- The positions of group `k` within group column `g`, in row order. -/
def posOf (g : Col) (k : String) : List ℕ :=
  (List.range g.length).filter fun j => keyAt g j = some k

/-- The positions before row `i` carrying the same group key as row `i`. -/
def prevSame (g : Col) (i : ℕ) : List ℕ :=
  (List.range i).filter fun j => keyAt g j = keyAt g i

/-- `series.shift(lag)`: element `k` of the result is element `k - lag` of
the series, NaN for `k < lag`. -/
def seriesShift (v : Col) (lag : ℕ) : Col :=
  (List.range v.length).map fun k =>
    if lag ≤ k then v.getD (k - lag) Cell.nan else Cell.nan

/-- `df.groupby(group_col)[target_col].shift(lag)`: each group's subseries
(in row order) is shifted by `lag` and the results are scattered back to
the original row positions; rows without a group key get NaN. -/
def groupbyShift (g v : Col) (lag : ℕ) : Col :=
  (List.range g.length).map fun i =>
    (keyAt g i).elim Cell.nan fun k =>
      let ps := posOf g k
      let r := ps.indexOf i
      if lag ≤ r then v.getD (ps.getD (r - lag) 0) Cell.nan else Cell.nan

/-- The positions of the rolling window ending at within-group position
`r`: the last `w` of the first `r + 1` group positions (fewer at the start
of the group, where `min_periods=1` still yields a value). -/
def winPositions (ps : List ℕ) (r w : ℕ) : List ℕ :=
  (ps.take (r + 1)).drop (r + 1 - w)

/-- The non-NaN observations of a window, as pandas rolling aggregations
see them (NaN entries are skipped; `min_periods` counts the rest). -/
def validQ (cs : List Cell) : List ℚ := cs.filterMap Cell.toQ?

/-- Maximum of a list of rationals (used only on non-empty lists). -/
def qMax : List ℚ → ℚ
  | [] => 0
  | x :: xs => xs.foldl max x

/-- Minimum of a list of rationals (used only on non-empty lists). -/
def qMin : List ℚ → ℚ
  | [] => 0
  | x :: xs => xs.foldl min x

/-- `rolling(w, min_periods=1).mean()` over one window: arithmetic mean of
the observations, NaN when there is none. -/
def meanStat (cs : List Cell) : Cell :=
  let v := validQ cs
  if v.length = 0 then Cell.nan else Cell.num (v.sum / (v.length : ℚ))

/-- `rolling(w, min_periods=1).max()` over one window. -/
def maxStat (cs : List Cell) : Cell :=
  let v := validQ cs
  if v.length = 0 then Cell.nan else Cell.num (qMax v)

/-- `rolling(w, min_periods=1).min()` over one window. -/
def minStat (cs : List Cell) : Cell :=
  let v := validQ cs
  if v.length = 0 then Cell.nan else Cell.num (qMin v)

/-- The sample variance (`ddof=1`, the pandas default) of a list of
observations; meaningful for two or more observations. -/
def sampleVar (v : List ℚ) : ℚ :=
  let n : ℚ := v.length
  let m : ℚ := v.sum / n
  (v.map fun x => (x - m) ^ 2).sum / (n - 1)

/-- `rolling(w, min_periods=1).std()` over one window: the sample standard
deviation of the observations; with fewer than two observations the
`ddof=1` denominator vanishes and pandas yields NaN. -/
noncomputable def stdStat (cs : List Cell) : Cell :=
  let v := validQ cs
  if v.length < 2 then Cell.nan else Cell.real (Real.sqrt ((sampleVar v : ℚ) : ℝ))

/-- `series.rolling(w, min_periods=1).agg(stat)`: the statistic of the
window of the last `w` elements ending at each position. -/
def seriesRolling (v : Col) (w : ℕ) (stat : List Cell → Cell) : Col :=
  (List.range v.length).map fun k =>
    stat ((winPositions (List.range v.length) k w).map fun j => v.getD j Cell.nan)

/-- `df.groupby(group_col)[target].transform(lambda x: x.rolling(w,
min_periods=1).agg(stat))`: the rolling statistic over each group's
subseries, scattered back to the original row positions. -/
def groupbyRolling (g v : Col) (w : ℕ) (stat : List Cell → Cell) : Col :=
  (List.range g.length).map fun i =>
    (keyAt g i).elim Cell.nan fun k =>
      let ps := posOf g k
      let r := ps.indexOf i
      stat ((winPositions ps r w).map fun j => v.getD j Cell.nan)

/-- The last `min(w, available)` observation positions of row `i`'s group
up to and including `i` itself: the window over which the rolling
statistics at row `i` are computed. -/
def lastObsWindow (g : Col) (i w : ℕ) : List ℕ :=
  (prevSame g i ++ [i]).drop ((prevSame g i).length + 1 - w)

/-- The name `f"{target_col}_lag_{lag}"`. -/
def lagName (target : String) (lag : ℕ) : String :=
  target ++ "_lag_" ++ toString lag

/-- The name `f"{target_col}_rolling_{stat}_{window}"`. -/
def rollName (target stat : String) (w : ℕ) : String :=
  target ++ "_rolling_" ++ stat ++ "_" ++ toString w

/-- `FeatureEngineer.add_lag_features` (features.py lines 57-85): for each
lag in order, assigns the (grouped) shifted target column; the group and
target columns are read from the current frame on each iteration.  The
source's for-loop is embedded as structural recursion over the lag list. -/
def addLagFeatures (df : DataFrame) (target : String) (lags : List ℕ)
    (group : Option String) : Option DataFrame :=
  match lags with
  | [] => some df
  | lag :: rest =>
      match group with
      | some gname => do
          let g ← getCol? df gname
          let t ← getCol? df target
          addLagFeatures (setCol df (lagName target lag) (groupbyShift g t lag))
            target rest group
      | none => do
          let t ← getCol? df target
          addLagFeatures (setCol df (lagName target lag) (seriesShift t lag))
            target rest group

/-- The four rolling statistic columns written for one window, in source
order (mean, std, max, min), when grouping by `gname`'s column `g` with
target column `t`. -/
noncomputable def rollWrites (target : String) (g t : Col) (w : ℕ) :
    List (String × Col) :=
  [(rollName target "mean" w, groupbyRolling g t w meanStat),
   (rollName target "std" w, groupbyRolling g t w stdStat),
   (rollName target "max" w, groupbyRolling g t w maxStat),
   (rollName target "min" w, groupbyRolling g t w minStat)]

/-- The names of the four rolling statistic columns for one window. -/
def rollNames (target : String) (w : ℕ) : List String :=
  [rollName target "mean" w, rollName target "std" w,
   rollName target "max" w, rollName target "min" w]

/-- `FeatureEngineer.add_rolling_features` (features.py lines 87-137): for
each window in order, assigns the four (grouped) rolling statistic columns
mean, std, max, min.  The source's for-loop is embedded as structural
recursion over the window list. -/
noncomputable def addRollingFeatures (df : DataFrame) (target : String)
    (windows : List ℕ) (group : Option String) : Option DataFrame :=
  match windows with
  | [] => some df
  | w :: rest =>
      match group with
      | some gname => do
          let g ← getCol? df gname
          let t ← getCol? df target
          addRollingFeatures (setCols df (rollWrites target g t w)) target rest group
      | none => do
          let t ← getCol? df target
          addRollingFeatures
            (setCols df
              [(rollName target "mean" w, seriesRolling t w meanStat),
               (rollName target "std" w, seriesRolling t w stdStat),
               (rollName target "max" w, seriesRolling t w maxStat),
               (rollName target "min" w, seriesRolling t w minStat)])
            target rest group

/-- `FeatureEngineer.create_all_features` (features.py lines 139-169):
temporal, then lag features with the default lags [1, 2, 3, 6, 12, 24],
then rolling features with the default windows [3, 6, 12, 24]. -/
noncomputable def createAllFeatures (df : DataFrame) (target tcol : String)
    (group : Option String) : Option DataFrame := do
  let d ← addTemporalFeatures df tcol
  let d ← addLagFeatures d target [1, 2, 3, 6, 12, 24] group
  let d ← addRollingFeatures d target [3, 6, 12, 24] group
  pure d

/-- All column names generated by `create_all_features` with its default
arguments. -/
def allFeatureNames : List String :=
  temporalNames ++ ([1, 2, 3, 6, 12, 24].map (lagName "occupancy_rate")) ++
    ([3, 6, 12, 24].flatMap (rollNames "occupancy_rate"))

/-! ### Feature selection (models.py / server.py / predict.py) -/

/-- The default `exclude_cols` of `ParkingForecaster.prepare_data`
(models.py lines 83-102), with the target column appended. -/
def excludeCols (target : String) : List String :=
  ["id", "lot_id", "city", "timestamp", "name", "address", "region",
   "created_at", "updated_at", "state", "free", "occupied", "lot_type",
   "id_lot", "latitude", "longitude", target]

/-- models.py line 105: the recorded feature columns are all frame columns
not excluded, in frame order.  This list is stored in
`forecaster.feature_columns` and saved with the model. -/
def prepareFeatureColumns (df : DataFrame) (target : String) : List String :=
  (colNames df).filter fun c => c ∉ excludeCols target

/-- `df[cols]`: column selection by an explicit name list; the result has
exactly the named columns in list order, or KeyError when one is
missing. -/
def selectCols (df : DataFrame) (cols : List String) : Option DataFrame :=
  if cols.all fun c => (getCol? df c).isSome then
    some (cols.map fun c => (c, (getCol? df c).getD []))
  else none

/-- The feature matrix `X = df[forecaster.feature_columns].fillna(0)`
built identically at the three inference sites: server.py line 283
(`get_forecast`), server.py line 341 (`get_all_forecasts`) and predict.py
line 66 (`make_predictions`). -/
def buildX (df : DataFrame) (featureColumns : List String) : Option DataFrame :=
  (selectCols df featureColumns).map fillna0

/-- Whether a column is object-typed: it holds at least one string cell. -/
def colIsObject (c : Col) : Bool := c.any fun x => match x with
  | Cell.text _ => true
  | _ => false

/-- The numeric-coercion loop of `prepare_data` (models.py lines 114-121):
object columns are converted with `pd.to_numeric` and dropped when the
conversion fails.  String parsing is not modelled: object columns are
treated as non-coercible and dropped (no object column reaches the feature
set in this pipeline, so the loop is a no-op there). -/
def dropObjectCols (df : DataFrame) : DataFrame :=
  df.filter fun p => !colIsObject p.2

/-- `ParkingForecaster.prepare_data` (models.py lines 66-126): records the
feature columns, keeps the rows whose target is present, and returns the
feature matrix (selected, NaN-filled, object columns dropped), the target
column and the recorded feature column names.  Rows are restricted via the
per-column filter below. -/
def keepIdx (tcell : Col) : List ℕ :=
  (List.range tcell.length).filter fun i => !(tcell.getD i Cell.nan).isNan

/-- Restrict every column of a frame to the rows whose target is
present (`df[df[target_col].notna()]`). -/
def restrictRows (df : DataFrame) (keep : List ℕ) : DataFrame :=
  df.map fun p => (p.1, keep.map fun i => p.2.getD i Cell.nan)

/-- `prepare_data` proper; `none` when the target column is missing. -/
def prepareData (df : DataFrame) (target : String) :
    Option (DataFrame × Col × List String) := do
  let tcell ← getCol? df target
  let fc := prepareFeatureColumns df target
  let clean := restrictRows df (keepIdx tcell)
  let X ← selectCols clean fc
  let X := fillna0 X
  let X := dropObjectCols X
  let y := keepIdx tcell |>.map fun i => tcell.getD i Cell.nan
  pure (X, y, fc)

/-! ## Helper lemmas -/

theorem getCol?_setCol_self (df : DataFrame) (n : String) (v : Col) :
    getCol? (setCol df n v) n = some v := by
  induction df with
  | nil => simp [setCol, getCol?]
  | cons p rest ih =>
      obtain ⟨m, c⟩ := p
      by_cases h : m = n
      · simp [setCol, getCol?, h]
      · simp [setCol, getCol?, h, ih]

theorem getCol?_setCol_ne (df : DataFrame) (n m : String) (v : Col)
    (h : m ≠ n) : getCol? (setCol df n v) m = getCol? df m := by
  induction df with
  | nil => simp [setCol, getCol?, Ne.symm h]
  | cons p rest ih =>
      obtain ⟨k, c⟩ := p
      by_cases hk : k = n
      · subst hk
        simp [setCol, getCol?, Ne.symm h]
      · by_cases hm : k = m
        · subst hm
          simp [setCol, getCol?, hk, h]
        · simp [setCol, getCol?, hk, hm, ih]

theorem setCols_append (df : DataFrame) (a b : List (String × Col)) :
    setCols df (a ++ b) = setCols (setCols df a) b := by
  simp [setCols, List.foldl_append]

theorem getCol?_setCols_not_mem (df : DataFrame) (ws : List (String × Col))
    (name : String) (h : name ∉ ws.map Prod.fst) :
    getCol? (setCols df ws) name = getCol? df name := by
  induction ws generalizing df with
  | nil => rfl
  | cons p rest ih =>
      simp only [List.map_cons, List.mem_cons, not_or] at h
      calc getCol? (setCols (setCol df p.1 p.2) rest) name
          = getCol? (setCol df p.1 p.2) name := ih _ h.2
        _ = getCol? df name := getCol?_setCol_ne _ _ _ _ h.1

theorem getCol?_setCols_split (df : DataFrame) (a b : List (String × Col))
    (n : String) (v : Col) (h : n ∉ b.map Prod.fst) :
    getCol? (setCols df (a ++ (n, v) :: b)) n = some v := by
  rw [setCols_append]
  calc getCol? (setCols (setCol (setCols df a) n v) b) n
      = getCol? (setCol (setCols df a) n v) n := getCol?_setCols_not_mem _ _ _ h
    _ = some v := getCol?_setCol_self _ _ _

theorem getD_map_range (n : ℕ) (f : ℕ → Cell) (i : ℕ) (hi : i < n) :
    ((List.range n).map f).getD i Cell.nan = f i := by
  simp [List.getD_eq_getElem?_getD, List.getElem?_range hi]

theorem length_map_range (n : ℕ) (f : ℕ → Cell) :
    ((List.range n).map f).length = n := by simp

theorem getD_map_of_lt (l : Col) (f : Cell → Cell) (i : ℕ) (h : i < l.length)
    (d d' : Cell) : (l.map f).getD i d = f (l.getD i d') := by
  simp [List.getD_eq_getElem?_getD, List.getElem?_eq_getElem, h]

theorem getD_nat_append_lt (A B : List ℕ) (j : ℕ) (h : j < A.length) :
    (A ++ B).getD j 0 = A.getD j 0 := by
  simp [List.getD_eq_getElem?_getD, List.getElem?_append_left h]

theorem lt_length_of_getD_time (l : Col) (i : ℕ) (t : PdTimestamp)
    (h : l.getD i Cell.nan = Cell.time t) : i < l.length := by
  by_contra hn
  push_neg at hn
  rw [List.getD_eq_getElem?_getD, List.getElem?_eq_none hn] at h
  exact Cell.noConfusion h

theorem prevSame_lt (g : Col) (i : ℕ) : ∀ j ∈ prevSame g i, j < i := by
  intro j hj
  exact List.mem_range.mp (List.mem_of_mem_filter hj)

theorem not_mem_prevSame (g : Col) (i : ℕ) : i ∉ prevSame g i := by
  intro h
  exact absurd (prevSame_lt g i i h) (lt_irrefl i)

theorem posOf_split (g : Col) {i : ℕ} (hi : i < g.length) {k : String}
    (hk : keyAt g i = some k) :
    ∃ B, posOf g k = prevSame g i ++ i :: B := by
  have h1 : g.length = (i + 1) + (g.length - (i + 1)) := by omega
  have hsplit : List.range g.length =
      (List.range i ++ [i]) ++ (List.range (g.length - (i + 1))).map ((i + 1) + ·) := by
    calc List.range g.length
        = List.range ((i + 1) + (g.length - (i + 1))) := by rw [← h1]
      _ = List.range (i + 1) ++
            (List.range (g.length - (i + 1))).map ((i + 1) + ·) :=
          List.range_add _ _
      _ = (List.range i ++ [i]) ++
            (List.range (g.length - (i + 1))).map ((i + 1) + ·) := by
          rw [List.range_succ]
  refine ⟨((List.range (g.length - (i + 1))).map ((i + 1) + ·)).filter
    (fun j => keyAt g j = some k), ?_⟩
  unfold posOf prevSame
  rw [hsplit, List.append_assoc, List.filter_append]
  have hone : (List.filter (fun j => decide (keyAt g j = some k))
      ([i] ++ (List.range (g.length - (i + 1))).map ((i + 1) + ·))) =
      i :: ((List.range (g.length - (i + 1))).map ((i + 1) + ·)).filter
        (fun j => keyAt g j = some k) := by
    rw [List.filter_append]
    rw [show List.filter (fun j => decide (keyAt g j = some k)) [i] = [i] by
      simp [List.filter, hk]]
    rfl
  rw [hone]
  congr 1
  apply List.filter_congr
  intro j _
  rw [hk]

theorem indexOf_prev_append (g : Col) (i : ℕ) (B : List ℕ) :
    (prevSame g i ++ i :: B).indexOf i = (prevSame g i).length := by
  rw [List.indexOf_append_of_not_mem (not_mem_prevSame g i),
    List.indexOf_cons_self, Nat.add_zero]

theorem groupbyShift_at (g v : Col) (lag i : ℕ) (k : String)
    (hi : i < g.length) (hk : keyAt g i = some k) (hlag : 1 ≤ lag) :
    (groupbyShift g v lag).getD i Cell.nan =
      if lag ≤ (prevSame g i).length then
        v.getD ((prevSame g i).getD ((prevSame g i).length - lag) 0) Cell.nan
      else Cell.nan := by
  obtain ⟨B, hB⟩ := posOf_split g hi hk
  unfold groupbyShift
  rw [getD_map_range _ _ i hi, hk]
  simp only [Option.elim_some, hB, indexOf_prev_append]
  by_cases hle : lag ≤ (prevSame g i).length
  · rw [if_pos hle, if_pos hle,
      getD_nat_append_lt _ _ _ (by omega : (prevSame g i).length - lag < (prevSame g i).length)]
  · rw [if_neg hle, if_neg hle]

theorem winPositions_split (prev B : List ℕ) (i w : ℕ) :
    winPositions (prev ++ i :: B) prev.length w =
      (prev ++ [i]).drop (prev.length + 1 - w) := by
  unfold winPositions
  congr 1
  rw [List.take_append_eq_append_take, List.take_of_length_le (by omega)]
  congr 1
  rw [show prev.length + 1 - prev.length = 1 by omega]
  rfl

theorem groupbyRolling_at (g v : Col) (w i : ℕ) (stat : List Cell → Cell)
    (k : String) (hi : i < g.length) (hk : keyAt g i = some k) :
    (groupbyRolling g v w stat).getD i Cell.nan =
      stat ((lastObsWindow g i w).map fun j => v.getD j Cell.nan) := by
  obtain ⟨B, hB⟩ := posOf_split g hi hk
  unfold groupbyRolling
  rw [getD_map_range _ _ i hi, hk]
  simp only [Option.elim_some, hB, indexOf_prev_append]
  rw [winPositions_split]
  rfl

theorem addLag_fold (gname target : String) (gcol tcol : Col)
    (lags : List ℕ) : ∀ (df : DataFrame),
    getCol? df gname = some gcol → getCol? df target = some tcol →
    (∀ l ∈ lags, lagName target l ≠ target ∧ lagName target l ≠ gname) →
    (lags.map (lagName target)).Nodup →
    ∃ out, addLagFeatures df target lags (some gname) = some out ∧
      getCol? out gname = some gcol ∧ getCol? out target = some tcol ∧
      (∀ name, name ∉ lags.map (lagName target) →
        getCol? out name = getCol? df name) ∧
      (∀ N ∈ lags, getCol? out (lagName target N) =
        some (groupbyShift gcol tcol N)) := by
  induction lags with
  | nil =>
      intro df hg ht _ _
      exact ⟨df, rfl, hg, ht, fun _ _ => rfl, by simp⟩
  | cons l ls ih =>
      intro df hg ht hnames hnodup
      have hne := hnames l (List.mem_cons_self l ls)
      have hg1 : getCol? (setCol df (lagName target l) (groupbyShift gcol tcol l))
          gname = some gcol := by
        rw [getCol?_setCol_ne _ _ _ _ (Ne.symm hne.2)]
        exact hg
      have ht1 : getCol? (setCol df (lagName target l) (groupbyShift gcol tcol l))
          target = some tcol := by
        rw [getCol?_setCol_ne _ _ _ _ (Ne.symm hne.1)]
        exact ht
      obtain ⟨out, hout, hog, hot, hframe, hcols⟩ :=
        ih (setCol df (lagName target l) (groupbyShift gcol tcol l)) hg1 ht1
          (fun x hx => hnames x (List.mem_cons_of_mem _ hx))
          (List.nodup_cons.mp (by simpa using hnodup)).2
      have hhead : lagName target l ∉ ls.map (lagName target) :=
        (List.nodup_cons.mp (by simpa using hnodup)).1
      refine ⟨out, ?_, hog, hot, ?_, ?_⟩
      · simp [addLagFeatures, hg, ht, hout]
      · intro name hname
        simp only [List.map_cons, List.mem_cons, not_or] at hname
        rw [hframe name hname.2, getCol?_setCol_ne _ _ _ _ hname.1]
      · intro N hN
        rcases List.mem_cons.mp hN with rfl | hN2
        · rw [hframe _ hhead, getCol?_setCol_self]
        · exact hcols N hN2

theorem rollWrites_names (target : String) (g t : Col) (w : ℕ) :
    (rollWrites target g t w).map Prod.fst = rollNames target w := by
  simp [rollWrites, rollNames]

theorem addRolling_fold (gname target : String) (gcol tcol : Col)
    (windows : List ℕ) : ∀ (df : DataFrame),
    getCol? df gname = some gcol → getCol? df target = some tcol →
    (∀ w ∈ windows, ∀ n ∈ rollNames target w, n ≠ target ∧ n ≠ gname) →
    (windows.flatMap (rollNames target)).Nodup →
    ∃ out, addRollingFeatures df target windows (some gname) = some out ∧
      getCol? out gname = some gcol ∧ getCol? out target = some tcol ∧
      (∀ name, name ∉ windows.flatMap (rollNames target) →
        getCol? out name = getCol? df name) ∧
      (∀ w ∈ windows,
        getCol? out (rollName target "mean" w) =
          some (groupbyRolling gcol tcol w meanStat) ∧
        getCol? out (rollName target "std" w) =
          some (groupbyRolling gcol tcol w stdStat) ∧
        getCol? out (rollName target "max" w) =
          some (groupbyRolling gcol tcol w maxStat) ∧
        getCol? out (rollName target "min" w) =
          some (groupbyRolling gcol tcol w minStat)) := by
  induction windows with
  | nil =>
      intro df hg ht _ _
      exact ⟨df, rfl, hg, ht, fun _ _ => rfl, by simp⟩
  | cons w ws ih =>
      intro df hg ht hnames hnodup
      have hnd : ((rollNames target w).Nodup ∧ (ws.flatMap (rollNames target)).Nodup) ∧
          ∀ n ∈ rollNames target w, n ∉ ws.flatMap (rollNames target) := by
        rw [List.flatMap_cons] at hnodup
        obtain ⟨h1, h2, h3⟩ := List.nodup_append.mp hnodup
        exact ⟨⟨h1, h2⟩, fun n hn hn2 => h3 hn hn2⟩
      have hwn := hnames w (List.mem_cons_self w ws)
      have hgmem : gname ∉ (rollWrites target gcol tcol w).map Prod.fst := by
        rw [rollWrites_names]
        intro hmem
        exact (hwn gname hmem).2 rfl
      have htmem : target ∉ (rollWrites target gcol tcol w).map Prod.fst := by
        rw [rollWrites_names]
        intro hmem
        exact (hwn target hmem).1 rfl
      have hg1 : getCol? (setCols df (rollWrites target gcol tcol w)) gname =
          some gcol := by
        rw [getCol?_setCols_not_mem _ _ _ hgmem]
        exact hg
      have ht1 : getCol? (setCols df (rollWrites target gcol tcol w)) target =
          some tcol := by
        rw [getCol?_setCols_not_mem _ _ _ htmem]
        exact ht
      obtain ⟨out, hout, hog, hot, hframe, hcols⟩ :=
        ih (setCols df (rollWrites target gcol tcol w)) hg1 ht1
          (fun x hx => hnames x (List.mem_cons_of_mem _ hx)) hnd.1.2
      refine ⟨out, ?_, hog, hot, ?_, ?_⟩
      · simp [addRollingFeatures, hg, ht, hout]
      · intro name hname
        rw [List.flatMap_cons, List.mem_append, not_or] at hname
        rw [hframe name hname.2, getCol?_setCols_not_mem]
        rw [rollWrites_names]
        exact hname.1
      · intro w2 hw2
        rcases List.mem_cons.mp hw2 with rfl | hw3
        · have hnd4 := hnd.1.1
          simp only [rollNames, List.nodup_cons, List.mem_cons,
            List.mem_singleton, not_or, List.not_mem_nil] at hnd4
          have hmean : getCol? (setCols df (rollWrites target gcol tcol w2))
              (rollName target "mean" w2) =
              some (groupbyRolling gcol tcol w2 meanStat) := by
            have := getCol?_setCols_split df []
              [(rollName target "std" w2, groupbyRolling gcol tcol w2 stdStat),
               (rollName target "max" w2, groupbyRolling gcol tcol w2 maxStat),
               (rollName target "min" w2, groupbyRolling gcol tcol w2 minStat)]
              (rollName target "mean" w2) (groupbyRolling gcol tcol w2 meanStat)
              (by simp only [List.map_cons, List.map_nil, List.mem_cons,
                    List.not_mem_nil, not_or]
                  tauto)
            exact this
          have hstd : getCol? (setCols df (rollWrites target gcol tcol w2))
              (rollName target "std" w2) =
              some (groupbyRolling gcol tcol w2 stdStat) := by
            have := getCol?_setCols_split df
              [(rollName target "mean" w2, groupbyRolling gcol tcol w2 meanStat)]
              [(rollName target "max" w2, groupbyRolling gcol tcol w2 maxStat),
               (rollName target "min" w2, groupbyRolling gcol tcol w2 minStat)]
              (rollName target "std" w2) (groupbyRolling gcol tcol w2 stdStat)
              (by simp only [List.map_cons, List.map_nil, List.mem_cons,
                    List.not_mem_nil, not_or]
                  tauto)
            exact this
          have hmax : getCol? (setCols df (rollWrites target gcol tcol w2))
              (rollName target "max" w2) =
              some (groupbyRolling gcol tcol w2 maxStat) := by
            have := getCol?_setCols_split df
              [(rollName target "mean" w2, groupbyRolling gcol tcol w2 meanStat),
               (rollName target "std" w2, groupbyRolling gcol tcol w2 stdStat)]
              [(rollName target "min" w2, groupbyRolling gcol tcol w2 minStat)]
              (rollName target "max" w2) (groupbyRolling gcol tcol w2 maxStat)
              (by simp only [List.map_cons, List.map_nil, List.mem_cons,
                    List.not_mem_nil, not_or]
                  tauto)
            exact this
          have hmin : getCol? (setCols df (rollWrites target gcol tcol w2))
              (rollName target "min" w2) =
              some (groupbyRolling gcol tcol w2 minStat) := by
            have := getCol?_setCols_split df
              [(rollName target "mean" w2, groupbyRolling gcol tcol w2 meanStat),
               (rollName target "std" w2, groupbyRolling gcol tcol w2 stdStat),
               (rollName target "max" w2, groupbyRolling gcol tcol w2 maxStat)]
              [] (rollName target "min" w2) (groupbyRolling gcol tcol w2 minStat)
              (by simp)
            exact this
          have hpres : ∀ n ∈ rollNames target w2,
              getCol? out n = getCol? (setCols df (rollWrites target gcol tcol w2)) n :=
            fun n hn => hframe n (hnd.2 n hn)
          refine ⟨?_, ?_, ?_, ?_⟩
          · rw [hpres _ (by simp [rollNames]), hmean]
          · rw [hpres _ (by simp [rollNames]), hstd]
          · rw [hpres _ (by simp [rollNames]), hmax]
          · rw [hpres _ (by simp [rollNames]), hmin]
        · exact hcols w2 hw3

/-! ## Claim C9 -/

/-- Claim C9: for every model prediction p, the forecast handlers return
`confidence_low = max(0, p - 10)` and `confidence_high = min(100, p + 10)`,
hence `confidence_low ≥ 0` and `confidence_high ≤ 100` always hold, and for
p in [0, 100] the prediction lies inside the band. -/
theorem confidence_band_bounds (rows : List (String × String × ℚ))
    (f : ForecastOut) (hf : f ∈ buildForecasts rows) :
    f.confidence_low = max 0 (f.predicted_occupancy_rate - 10) ∧
    f.confidence_high = min 100 (f.predicted_occupancy_rate + 10) ∧
    0 ≤ f.confidence_low ∧ f.confidence_high ≤ 100 ∧
    (0 ≤ f.predicted_occupancy_rate → f.predicted_occupancy_rate ≤ 100 →
      f.confidence_low ≤ f.predicted_occupancy_rate ∧
      f.predicted_occupancy_rate ≤ f.confidence_high) := by
  obtain ⟨r, _, rfl⟩ := List.mem_map.mp hf
  simp only [mkForecast, confidenceLow, confidenceHigh]
  refine ⟨trivial, trivial, le_max_left _ _, min_le_left _ _, fun h0 h1 => ⟨?_, ?_⟩⟩
  · exact max_le h0 (by linarith)
  · exact le_min h1 (by linarith)

/-- Witness for C9 at a concrete forecast row. -/
theorem confidence_band_bounds_witness :
    mkForecast "lot1" "Main" 50 ∈ buildForecasts [("lot1", "Main", 50)] ∧
    (mkForecast "lot1" "Main" 50).confidence_low = 40 ∧
    (mkForecast "lot1" "Main" 50).confidence_high = 60 := by
  have h := confidence_band_bounds [("lot1", "Main", 50)]
    (mkForecast "lot1" "Main" 50) (by simp [buildForecasts])
  refine ⟨by simp [buildForecasts], ?_, ?_⟩
  · rw [h.1]; norm_num [mkForecast]
  · rw [h.2.1]; norm_num [mkForecast]

/-! ## Claim C3 -/

/-- Claim C3 counterexample: the band is clamped to [0, 100], so its width
is not a constant and it is not always centered on the prediction.  At
prediction 0 the band is [0, 10] (width 10, center 5), while at prediction
50 it is [40, 60] (width 20). -/
theorem forecast_band_cex :
    (mkForecast "a" "A" 0).confidence_high - (mkForecast "a" "A" 0).confidence_low = 10 ∧
    (mkForecast "b" "B" 50).confidence_high - (mkForecast "b" "B" 50).confidence_low = 20 ∧
    (mkForecast "a" "A" 0).confidence_low + (mkForecast "a" "A" 0).confidence_high ≠
      2 * (mkForecast "a" "A" 0).predicted_occupancy_rate := by
  refine ⟨?_, ?_, ?_⟩ <;> norm_num [mkForecast, confidenceLow, confidenceHigh]

/-- Claim C3 (amended): every served forecast carries the ±10 band clamped
to [0, 100]: `confidence_low = max(0, p - 10)`,
`confidence_high = min(100, p + 10)`.  Whenever the prediction lies in
[10, 90] the band has the constant width 20 and is centered on the
prediction; near the boundaries it is truncated by the clamping. -/
theorem forecast_band_spec (rows : List (String × String × ℚ))
    (f : ForecastOut) (hf : f ∈ buildForecasts rows) :
    f.confidence_low = max 0 (f.predicted_occupancy_rate - 10) ∧
    f.confidence_high = min 100 (f.predicted_occupancy_rate + 10) ∧
    (10 ≤ f.predicted_occupancy_rate → f.predicted_occupancy_rate ≤ 90 →
      f.confidence_high - f.confidence_low = 20 ∧
      f.confidence_low + f.confidence_high = 2 * f.predicted_occupancy_rate) := by
  obtain ⟨r, _, rfl⟩ := List.mem_map.mp hf
  simp only [mkForecast, confidenceLow, confidenceHigh]
  refine ⟨trivial, trivial, fun h0 h1 => ?_⟩
  have hlo : max 0 (r.2.2 - 10) = r.2.2 - 10 := max_eq_right (by linarith)
  have hhi : min 100 (r.2.2 + 10) = r.2.2 + 10 := min_eq_right (by linarith)
  rw [hlo, hhi]
  constructor <;> ring

/-- Witness for the amended C3 at a concrete forecast row. -/
theorem forecast_band_spec_witness :
    mkForecast "lot1" "Main" 30 ∈ buildForecasts [("lot1", "Main", 30)] ∧
    (mkForecast "lot1" "Main" 30).confidence_high -
      (mkForecast "lot1" "Main" 30).confidence_low = 20 := by
  have h := forecast_band_spec [("lot1", "Main", 30)]
    (mkForecast "lot1" "Main" 30) (by simp [buildForecasts])
  exact ⟨by simp [buildForecasts], (h.2.2 (by norm_num [mkForecast]) (by norm_num [mkForecast])).1⟩

/-! ## Claim C6 -/

/-- Claim C6 counterexample: the code reloads only when the mtime strictly
increases, not whenever it differs.  With recorded mtime 2 and a file whose
mtime moved back to 1 (carrying a different model blob 99), the state is
left unchanged and the old model 7 stays loaded. -/
theorem model_reload_cex :
    statFile [(defaultModelPath, ⟨1, 99⟩)] defaultModelPath = some ⟨1, 99⟩ ∧
    (1 : ℚ) ≠ 2 ∧
    check_and_reload_model [(defaultModelPath, ⟨1, 99⟩)]
        ⟨some defaultModelPath, some 2, some 7⟩ =
      ⟨some defaultModelPath, some 2, some 7⟩ ∧
    (⟨some defaultModelPath, some 2, some 7⟩ : ServerState).forecaster ≠ some 99 := by
  refine ⟨rfl, by norm_num, rfl, by simp⟩

/-- Claim C6 (amended): `check_and_reload_model` re-reads the model if and
only if a model path is recorded, the file exists, and either no mtime is
recorded or the file's current mtime is strictly greater than the recorded
one; an mtime that moved backwards (or stayed equal) does not trigger a
reload, and in all non-reload cases the state is unchanged. -/
theorem model_reload_spec (fs : FileSys) (s : ServerState)
    (hp : s.modelPath = some defaultModelPath) :
    (statFile fs defaultModelPath = none → check_and_reload_model fs s = s) ∧
    (∀ f, statFile fs defaultModelPath = some f →
      ((s.modelLastModified = none ∨
          ∃ t, s.modelLastModified = some t ∧ t < f.mtime) →
        check_and_reload_model fs s =
          ⟨some defaultModelPath, some f.mtime, some f.blob⟩) ∧
      (∀ t, s.modelLastModified = some t → ¬ t < f.mtime →
        check_and_reload_model fs s = s)) := by
  constructor
  · intro hnone
    simp [check_and_reload_model, hp, hnone]
  · intro f hf
    constructor
    · rintro (hm | ⟨t, hm, hlt⟩)
      · simp [check_and_reload_model, hp, hf, hm, load_model]
      · simp [check_and_reload_model, hp, hf, hm, hlt, load_model]
    · intro t hm hlt
      simp [check_and_reload_model, hp, hf, hm, hlt]

/-- Witness for the amended C6: a file with a strictly larger mtime is
reloaded. -/
theorem model_reload_spec_witness :
    (⟨some defaultModelPath, some 2, some 7⟩ : ServerState).modelPath =
      some defaultModelPath ∧
    statFile [(defaultModelPath, ⟨5, 42⟩)] defaultModelPath = some ⟨5, 42⟩ ∧
    check_and_reload_model [(defaultModelPath, ⟨5, 42⟩)]
        ⟨some defaultModelPath, some 2, some 7⟩ =
      ⟨some defaultModelPath, some 5, some 42⟩ := by
  refine ⟨rfl, rfl, ?_⟩
  exact ((model_reload_spec [(defaultModelPath, ⟨5, 42⟩)]
      ⟨some defaultModelPath, some 2, some 7⟩ rfl).2 ⟨5, 42⟩ rfl).1
    (Or.inr ⟨2, rfl, by norm_num⟩)

/-! ## Claim C2 -/

/-- Claim C2: every merged reading produced by `load_combined_data` (and by
the handlers, which run the same join and assignments, embedded once as
`mergeReadingsLots`) has
`occupancy_rate = (total - free) / total * 100`, where `total` comes from
the matching parking lot and `free` from the reading. -/
theorem occupancy_rate_formula (rs : List Reading) (ls : List ParkingLot)
    (m : MergedRow) (hm : m ∈ mergeReadingsLots rs ls) :
    (∃ r ∈ rs, ∃ l ∈ ls, l.id = r.lot_id ∧ m.free = r.free ∧ m.total = l.total ∧
      m.occupancy_rate = (l.total - r.free) / l.total * 100) ∧
    m.occupancy_rate = (m.total - m.free) / m.total * 100 ∧
    (∀ db, load_combined_data db =
      mergeReadingsLots (load_readings db none none none) db.lots) := by
  rw [mergeReadingsLots, List.mem_flatMap] at hm
  obtain ⟨r, hr, hmr⟩ := hm
  rw [List.mem_map] at hmr
  obtain ⟨l, hl, rfl⟩ := hmr
  rw [List.mem_filter] at hl
  refine ⟨⟨r, hr, l, hl.1, by simpa using hl.2, rfl, rfl, rfl⟩, rfl, fun db => rfl⟩

/-- Witness for C2 on a one-reading, one-lot database. -/
theorem occupancy_rate_formula_witness :
    (⟨1, "a", 5, 30, "A", 100, "surface", 0, 0, 70, 70⟩ : MergedRow) ∈
      mergeReadingsLots [⟨1, "a", 5, 30⟩] [⟨"a", "A", 100, "surface", 0, 0⟩] ∧
    (⟨1, "a", 5, 30, "A", 100, "surface", 0, 0, 70, 70⟩ : MergedRow).occupancy_rate =
      ((100 : ℚ) - 30) / 100 * 100 := by
  have hm : (⟨1, "a", 5, 30, "A", 100, "surface", 0, 0, 70, 70⟩ : MergedRow) ∈
      mergeReadingsLots [⟨1, "a", 5, 30⟩] [⟨"a", "A", 100, "surface", 0, 0⟩] := by
    norm_num [mergeReadingsLots]
  refine ⟨hm, ?_⟩
  have h := occupancy_rate_formula [⟨1, "a", 5, 30⟩]
    [⟨"a", "A", 100, "surface", 0, 0⟩] _ hm
  rw [h.2.1]

/-! ## Claim C10 -/

/-- Claim C10 counterexample: an empty `lot_ids` list is falsy in Python,
so `load_readings` applies no lot filter at all and returns rows whose
`lot_id` is not in the (empty) supplied list. -/
theorem load_readings_cex :
    load_readings ⟨[], [⟨1, "a", 5, 3⟩]⟩ none none (some []) = [⟨1, "a", 5, 3⟩] ∧
    (⟨1, "a", 5, 3⟩ : Reading).lot_id ∉ ([] : List String) := by
  exact ⟨rfl, by simp⟩

/-- Claim C10 (amended): for every combination of the optional filters,
`load_readings` returns exactly the matching rows (a permutation of the
filtered table) in non-decreasing timestamp order, and every returned row
satisfies each supplied filter, except that a supplied but empty `lot_ids`
list is treated as no filter (it is falsy in Python). -/
theorem load_readings_spec (db : ParkingDb) (s e : Option ℕ)
    (ids : Option (List String)) :
    List.Sorted tsLe (load_readings db s e ids) ∧
    (load_readings db s e ids).Perm
      (db.readings.filter (matchesFilters s e ids)) ∧
    ∀ r ∈ load_readings db s e ids,
      (∀ t, s = some t → t ≤ r.timestamp) ∧
      (∀ t, e = some t → r.timestamp ≤ t) ∧
      (∀ l, ids = some l → l ≠ [] → r.lot_id ∈ l) := by
  refine ⟨List.sorted_insertionSort tsLe _, List.perm_insertionSort tsLe _, ?_⟩
  intro r hr
  have hmem := (List.perm_insertionSort tsLe
    (db.readings.filter (matchesFilters s e ids))).subset hr
  rw [List.mem_filter] at hmem
  obtain ⟨-, hf⟩ := hmem
  simp only [matchesFilters, Bool.and_eq_true] at hf
  obtain ⟨⟨hs, he⟩, hi⟩ := hf
  refine ⟨?_, ?_, ?_⟩
  · intro t ht
    subst ht
    exact of_decide_eq_true hs
  · intro t ht
    subst ht
    exact of_decide_eq_true he
  · intro l hl hne
    subst hl
    cases l with
    | nil => exact absurd rfl hne
    | cons a as =>
        simp only [List.isEmpty_cons, if_false, Bool.false_eq_true] at hi
        exact List.mem_of_elem_eq_true hi

/-- Witness for the amended C10 on a two-reading database with all three
filters supplied. -/
theorem load_readings_spec_witness :
    List.Sorted tsLe (load_readings ⟨[], [⟨1, "a", 9, 3⟩, ⟨2, "b", 4, 1⟩]⟩
      (some 1) (some 20) (some ["a", "b"])) := by
  exact (load_readings_spec ⟨[], [⟨1, "a", 9, 3⟩, ⟨2, "b", 4, 1⟩]⟩
    (some 1) (some 20) (some ["a", "b"])).1

theorem temporalWrites_names (ts : Col) :
    (temporalWrites ts).map Prod.fst = temporalNames := by
  simp [temporalWrites, temporalNames]

theorem addTemporal_props (df : DataFrame) (ts : Col)
    (hts : getCol? df "timestamp" = some ts) :
    addTemporalFeatures df "timestamp" = some (setCols df (temporalWrites ts)) ∧
    (∀ name, name ∉ temporalNames →
      getCol? (setCols df (temporalWrites ts)) name = getCol? df name) ∧
    getCol? (setCols df (temporalWrites ts)) "hour_sin" =
      some ((ts.map (tsMap PdTimestamp.hour)).map (trigSin 24)) ∧
    getCol? (setCols df (temporalWrites ts)) "hour_cos" =
      some ((ts.map (tsMap PdTimestamp.hour)).map (trigCos 24)) ∧
    getCol? (setCols df (temporalWrites ts)) "day_sin" =
      some ((ts.map (tsMap PdTimestamp.dayofweek)).map (trigSin 7)) ∧
    getCol? (setCols df (temporalWrites ts)) "day_cos" =
      some ((ts.map (tsMap PdTimestamp.dayofweek)).map (trigCos 7)) ∧
    getCol? (setCols df (temporalWrites ts)) "month_sin" =
      some ((ts.map (tsMap PdTimestamp.month)).map (trigSin 12)) ∧
    getCol? (setCols df (temporalWrites ts)) "month_cos" =
      some ((ts.map (tsMap PdTimestamp.month)).map (trigCos 12)) := by
  refine ⟨by simp [addTemporalFeatures, hts], ?_, ?_, ?_, ?_, ?_, ?_, ?_⟩
  · intro name hname
    apply getCol?_setCols_not_mem
    rw [temporalWrites_names]
    exact hname
  · rw [show temporalWrites ts = (temporalWrites ts).take 6 ++
      ("hour_sin", (ts.map (tsMap PdTimestamp.hour)).map (trigSin 24)) ::
        (temporalWrites ts).drop 7 from rfl]
    exact getCol?_setCols_split _ _ _ _ _ (by simp [temporalWrites])
  · rw [show temporalWrites ts = (temporalWrites ts).take 7 ++
      ("hour_cos", (ts.map (tsMap PdTimestamp.hour)).map (trigCos 24)) ::
        (temporalWrites ts).drop 8 from rfl]
    exact getCol?_setCols_split _ _ _ _ _ (by simp [temporalWrites])
  · rw [show temporalWrites ts = (temporalWrites ts).take 8 ++
      ("day_sin", (ts.map (tsMap PdTimestamp.dayofweek)).map (trigSin 7)) ::
        (temporalWrites ts).drop 9 from rfl]
    exact getCol?_setCols_split _ _ _ _ _ (by simp [temporalWrites])
  · rw [show temporalWrites ts = (temporalWrites ts).take 9 ++
      ("day_cos", (ts.map (tsMap PdTimestamp.dayofweek)).map (trigCos 7)) ::
        (temporalWrites ts).drop 10 from rfl]
    exact getCol?_setCols_split _ _ _ _ _ (by simp [temporalWrites])
  · rw [show temporalWrites ts = (temporalWrites ts).take 10 ++
      ("month_sin", (ts.map (tsMap PdTimestamp.month)).map (trigSin 12)) ::
        (temporalWrites ts).drop 11 from rfl]
    exact getCol?_setCols_split _ _ _ _ _ (by simp [temporalWrites])
  · rw [show temporalWrites ts = (temporalWrites ts).take 11 ++
      ("month_cos", (ts.map (tsMap PdTimestamp.month)).map (trigCos 12)) ::
        (temporalWrites ts).drop 12 from rfl]
    exact getCol?_setCols_split _ _ _ _ _ (by simp [temporalWrites])

/-! ## Claim C7 -/

/-- Claim C7: on a datetime-typed timestamp column, every row of the frame
returned by `add_temporal_features` encodes each periodic calendar field by
a sine/cosine pair over its period: `hour_sin = sin(2π·hour/24)`,
`hour_cos = cos(2π·hour/24)`, `day_sin = sin(2π·day_of_week/7)`,
`day_cos = cos(2π·day_of_week/7)`, `month_sin = sin(2π·month/12)`,
`month_cos = cos(2π·month/12)`. -/
theorem temporal_trig_spec (df : DataFrame) (ts : Col)
    (hts : getCol? df "timestamp" = some ts) (hdt : isDatetimeCol ts = true) :
    ∃ out, addTemporalFeatures df "timestamp" = some out ∧
      ∃ hs hc ds dc ms mc,
        getCol? out "hour_sin" = some hs ∧ getCol? out "hour_cos" = some hc ∧
        getCol? out "day_sin" = some ds ∧ getCol? out "day_cos" = some dc ∧
        getCol? out "month_sin" = some ms ∧ getCol? out "month_cos" = some mc ∧
        ∀ i t, ts.getD i Cell.nan = Cell.time t →
          hs.getD i Cell.nan =
            Cell.real (Real.sin (2 * Real.pi * (t.hour : ℝ) / 24)) ∧
          hc.getD i Cell.nan =
            Cell.real (Real.cos (2 * Real.pi * (t.hour : ℝ) / 24)) ∧
          ds.getD i Cell.nan =
            Cell.real (Real.sin (2 * Real.pi * (t.dayofweek : ℝ) / 7)) ∧
          dc.getD i Cell.nan =
            Cell.real (Real.cos (2 * Real.pi * (t.dayofweek : ℝ) / 7)) ∧
          ms.getD i Cell.nan =
            Cell.real (Real.sin (2 * Real.pi * (t.month : ℝ) / 12)) ∧
          mc.getD i Cell.nan =
            Cell.real (Real.cos (2 * Real.pi * (t.month : ℝ) / 12)) := by
  obtain ⟨hout, -, h1, h2, h3, h4, h5, h6⟩ := addTemporal_props df ts hts
  refine ⟨_, hout, _, _, _, _, _, _, h1, h2, h3, h4, h5, h6, ?_⟩
  intro i t hit
  have hi : i < ts.length := lt_length_of_getD_time ts i t hit
  have hmap : ∀ f : PdTimestamp → ℕ, (ts.map (tsMap f)).getD i Cell.nan =
      Cell.num (f t) := by
    intro f
    rw [getD_map_of_lt ts (tsMap f) i hi Cell.nan Cell.nan, hit]
    rfl
  have hlen : ∀ f : PdTimestamp → ℕ, i < (ts.map (tsMap f)).length := by
    intro f
    simpa using hi
  have hcast : ∀ n : ℕ, (((n : ℚ) : ℝ)) = (n : ℝ) := by
    intro n
    push_cast
    rfl
  refine ⟨?_, ?_, ?_, ?_, ?_, ?_⟩
  · rw [getD_map_of_lt _ (trigSin 24) i (hlen PdTimestamp.hour) Cell.nan Cell.nan,
      hmap PdTimestamp.hour]
    simp [trigSin, hcast]
  · rw [getD_map_of_lt _ (trigCos 24) i (hlen PdTimestamp.hour) Cell.nan Cell.nan,
      hmap PdTimestamp.hour]
    simp [trigCos, hcast]
  · rw [getD_map_of_lt _ (trigSin 7) i (hlen PdTimestamp.dayofweek) Cell.nan Cell.nan,
      hmap PdTimestamp.dayofweek]
    simp [trigSin, hcast]
  · rw [getD_map_of_lt _ (trigCos 7) i (hlen PdTimestamp.dayofweek) Cell.nan Cell.nan,
      hmap PdTimestamp.dayofweek]
    simp [trigCos, hcast]
  · rw [getD_map_of_lt _ (trigSin 12) i (hlen PdTimestamp.month) Cell.nan Cell.nan,
      hmap PdTimestamp.month]
    simp [trigSin, hcast]
  · rw [getD_map_of_lt _ (trigCos 12) i (hlen PdTimestamp.month) Cell.nan Cell.nan,
      hmap PdTimestamp.month]
    simp [trigCos, hcast]

/-- Witness for C7 on a one-row frame whose timestamp has hour 8,
day-of-week 2 and month 3. -/
theorem temporal_trig_spec_witness :
    getCol? [("timestamp", [Cell.time ⟨8, 2, 15, 3, 2024, 11⟩])] "timestamp" =
      some [Cell.time ⟨8, 2, 15, 3, 2024, 11⟩] ∧
    isDatetimeCol [Cell.time ⟨8, 2, 15, 3, 2024, 11⟩] = true ∧
    (∃ out, addTemporalFeatures [("timestamp",
        [Cell.time ⟨8, 2, 15, 3, 2024, 11⟩])] "timestamp" = some out ∧
      ∃ hs hc ds dc ms mc,
        getCol? out "hour_sin" = some hs ∧ getCol? out "hour_cos" = some hc ∧
        getCol? out "day_sin" = some ds ∧ getCol? out "day_cos" = some dc ∧
        getCol? out "month_sin" = some ms ∧ getCol? out "month_cos" = some mc ∧
        ∀ i t, ([Cell.time ⟨8, 2, 15, 3, 2024, 11⟩] : Col).getD i Cell.nan =
            Cell.time t →
          hs.getD i Cell.nan =
            Cell.real (Real.sin (2 * Real.pi * (t.hour : ℝ) / 24)) ∧
          hc.getD i Cell.nan =
            Cell.real (Real.cos (2 * Real.pi * (t.hour : ℝ) / 24)) ∧
          ds.getD i Cell.nan =
            Cell.real (Real.sin (2 * Real.pi * (t.dayofweek : ℝ) / 7)) ∧
          dc.getD i Cell.nan =
            Cell.real (Real.cos (2 * Real.pi * (t.dayofweek : ℝ) / 7)) ∧
          ms.getD i Cell.nan =
            Cell.real (Real.sin (2 * Real.pi * (t.month : ℝ) / 12)) ∧
          mc.getD i Cell.nan =
            Cell.real (Real.cos (2 * Real.pi * (t.month : ℝ) / 12))) :=
  ⟨rfl, rfl, temporal_trig_spec
    [("timestamp", [Cell.time ⟨8, 2, 15, 3, 2024, 11⟩])]
    [Cell.time ⟨8, 2, 15, 3, 2024, 11⟩] rfl rfl⟩

/-! ## Claim C4 -/

/-- Claim C4: for every input frame, every lag N in the lag list and every
row, the column `{target}_lag_N` produced by `add_lag_features` with
`group_col` set holds the value of the target N rows earlier within the
same parking lot's sequence (the N-th most recent strictly-earlier row with
the same group key), and NaN when that lot has fewer than N earlier rows;
rows of other lots never contribute, since only positions in `prevSame`
(same key) are read. -/
theorem lag_features_spec (df : DataFrame) (gname target : String)
    (lags : List ℕ) (gcol tcol : Col)
    (hg : getCol? df gname = some gcol) (ht : getCol? df target = some tcol)
    (hnames : ∀ l ∈ lags, lagName target l ≠ target ∧ lagName target l ≠ gname)
    (hnodup : (lags.map (lagName target)).Nodup)
    (hpos : ∀ l ∈ lags, 1 ≤ l) :
    ∃ out, addLagFeatures df target lags (some gname) = some out ∧
      ∀ N ∈ lags, ∃ lcol, getCol? out (lagName target N) = some lcol ∧
        lcol.length = gcol.length ∧
        ∀ i k, i < gcol.length → keyAt gcol i = some k →
          lcol.getD i Cell.nan =
            if N ≤ (prevSame gcol i).length then
              tcol.getD ((prevSame gcol i).getD ((prevSame gcol i).length - N) 0)
                Cell.nan
            else Cell.nan := by
  obtain ⟨out, hout, -, -, -, hcols⟩ :=
    addLag_fold gname target gcol tcol lags df hg ht hnames hnodup
  refine ⟨out, hout, fun N hN => ⟨groupbyShift gcol tcol N, hcols N hN, ?_, ?_⟩⟩
  · simp [groupbyShift]
  · intro i k hi hk
    exact groupbyShift_at gcol tcol N i k hi hk (hpos N hN)

/-- Witness for C4 on a three-row frame with two lots and lag 1. -/
theorem lag_features_spec_witness :
    getCol? [("lot_id", [Cell.text "a", Cell.text "b", Cell.text "a"]),
      ("occupancy_rate", [Cell.num 10, Cell.num 20, Cell.num 30])] "lot_id" =
      some [Cell.text "a", Cell.text "b", Cell.text "a"] ∧
    (∃ out, addLagFeatures
        [("lot_id", [Cell.text "a", Cell.text "b", Cell.text "a"]),
         ("occupancy_rate", [Cell.num 10, Cell.num 20, Cell.num 30])]
        "occupancy_rate" [1] (some "lot_id") = some out ∧
      ∀ N ∈ [1], ∃ lcol,
        getCol? out (lagName "occupancy_rate" N) = some lcol ∧
        lcol.length =
          ([Cell.text "a", Cell.text "b", Cell.text "a"] : Col).length ∧
        ∀ i k, i < ([Cell.text "a", Cell.text "b", Cell.text "a"] : Col).length →
          keyAt [Cell.text "a", Cell.text "b", Cell.text "a"] i = some k →
          lcol.getD i Cell.nan =
            if N ≤ (prevSame [Cell.text "a", Cell.text "b", Cell.text "a"] i).length
            then ([Cell.num 10, Cell.num 20, Cell.num 30] : Col).getD
                ((prevSame [Cell.text "a", Cell.text "b", Cell.text "a"] i).getD
                  ((prevSame [Cell.text "a", Cell.text "b", Cell.text "a"] i).length
                    - N) 0) Cell.nan
            else Cell.nan) :=
  ⟨rfl, lag_features_spec
    [("lot_id", [Cell.text "a", Cell.text "b", Cell.text "a"]),
     ("occupancy_rate", [Cell.num 10, Cell.num 20, Cell.num 30])]
    "lot_id" "occupancy_rate" [1]
    [Cell.text "a", Cell.text "b", Cell.text "a"]
    [Cell.num 10, Cell.num 20, Cell.num 30]
    rfl rfl (by decide) (by decide) (by decide)⟩

/-! ## Claim C5 -/

/-- Claim C5: for every input frame, every window size w and every row, the
four columns produced by `add_rolling_features` with `group_col` set hold
the rolling mean, sample standard deviation, maximum and minimum of the
target over the window of the last w observations of the same parking lot
(fewer at the start of a lot's sequence, where `min_periods=1` still
yields a value; the sample standard deviation of a single observation is
undefined and is NaN). -/
theorem rolling_features_spec (df : DataFrame) (gname target : String)
    (windows : List ℕ) (gcol tcol : Col)
    (hg : getCol? df gname = some gcol) (ht : getCol? df target = some tcol)
    (hnames : ∀ w ∈ windows, ∀ n ∈ rollNames target w, n ≠ target ∧ n ≠ gname)
    (hnodup : (windows.flatMap (rollNames target)).Nodup) :
    ∃ out, addRollingFeatures df target windows (some gname) = some out ∧
      ∀ w ∈ windows, ∃ mc sc xc nc,
        getCol? out (rollName target "mean" w) = some mc ∧
        getCol? out (rollName target "std" w) = some sc ∧
        getCol? out (rollName target "max" w) = some xc ∧
        getCol? out (rollName target "min" w) = some nc ∧
        mc.length = gcol.length ∧
        ∀ i k, i < gcol.length → keyAt gcol i = some k →
          mc.getD i Cell.nan =
            meanStat ((lastObsWindow gcol i w).map fun j => tcol.getD j Cell.nan) ∧
          sc.getD i Cell.nan =
            stdStat ((lastObsWindow gcol i w).map fun j => tcol.getD j Cell.nan) ∧
          xc.getD i Cell.nan =
            maxStat ((lastObsWindow gcol i w).map fun j => tcol.getD j Cell.nan) ∧
          nc.getD i Cell.nan =
            minStat ((lastObsWindow gcol i w).map fun j => tcol.getD j Cell.nan) := by
  obtain ⟨out, hout, -, -, -, hcols⟩ :=
    addRolling_fold gname target gcol tcol windows df hg ht hnames hnodup
  refine ⟨out, hout, fun w hw => ?_⟩
  obtain ⟨hmean, hstd, hmax, hmin⟩ := hcols w hw
  refine ⟨_, _, _, _, hmean, hstd, hmax, hmin, by simp [groupbyRolling], ?_⟩
  intro i k hi hk
  exact ⟨groupbyRolling_at gcol tcol w i meanStat k hi hk,
    groupbyRolling_at gcol tcol w i stdStat k hi hk,
    groupbyRolling_at gcol tcol w i maxStat k hi hk,
    groupbyRolling_at gcol tcol w i minStat k hi hk⟩

/-- Witness for C5 on a three-row frame with two lots and window 3. -/
theorem rolling_features_spec_witness :
    getCol? [("lot_id", [Cell.text "a", Cell.text "b", Cell.text "a"]),
      ("occupancy_rate", [Cell.num 10, Cell.num 20, Cell.num 30])]
      "occupancy_rate" = some [Cell.num 10, Cell.num 20, Cell.num 30] ∧
    (∃ out, addRollingFeatures
        [("lot_id", [Cell.text "a", Cell.text "b", Cell.text "a"]),
         ("occupancy_rate", [Cell.num 10, Cell.num 20, Cell.num 30])]
        "occupancy_rate" [3] (some "lot_id") = some out ∧
      ∀ w ∈ [3], ∃ mc sc xc nc,
        getCol? out (rollName "occupancy_rate" "mean" w) = some mc ∧
        getCol? out (rollName "occupancy_rate" "std" w) = some sc ∧
        getCol? out (rollName "occupancy_rate" "max" w) = some xc ∧
        getCol? out (rollName "occupancy_rate" "min" w) = some nc ∧
        mc.length =
          ([Cell.text "a", Cell.text "b", Cell.text "a"] : Col).length ∧
        ∀ i k, i < ([Cell.text "a", Cell.text "b", Cell.text "a"] : Col).length →
          keyAt [Cell.text "a", Cell.text "b", Cell.text "a"] i = some k →
          mc.getD i Cell.nan = meanStat
            ((lastObsWindow [Cell.text "a", Cell.text "b", Cell.text "a"] i w).map
              fun j => ([Cell.num 10, Cell.num 20, Cell.num 30] : Col).getD j
                Cell.nan) ∧
          sc.getD i Cell.nan = stdStat
            ((lastObsWindow [Cell.text "a", Cell.text "b", Cell.text "a"] i w).map
              fun j => ([Cell.num 10, Cell.num 20, Cell.num 30] : Col).getD j
                Cell.nan) ∧
          xc.getD i Cell.nan = maxStat
            ((lastObsWindow [Cell.text "a", Cell.text "b", Cell.text "a"] i w).map
              fun j => ([Cell.num 10, Cell.num 20, Cell.num 30] : Col).getD j
                Cell.nan) ∧
          nc.getD i Cell.nan = minStat
            ((lastObsWindow [Cell.text "a", Cell.text "b", Cell.text "a"] i w).map
              fun j => ([Cell.num 10, Cell.num 20, Cell.num 30] : Col).getD j
                Cell.nan)) :=
  ⟨rfl, rolling_features_spec
    [("lot_id", [Cell.text "a", Cell.text "b", Cell.text "a"]),
     ("occupancy_rate", [Cell.num 10, Cell.num 20, Cell.num 30])]
    "lot_id" "occupancy_rate" [3]
    [Cell.text "a", Cell.text "b", Cell.text "a"]
    [Cell.num 10, Cell.num 20, Cell.num 30]
    rfl rfl (by decide) (by decide)⟩

theorem getCol?_isSome_of_mem_colNames (df : DataFrame) (c : String)
    (h : c ∈ colNames df) : ∃ v, getCol? df c = some v := by
  induction df with
  | nil => simp [colNames] at h
  | cons p rest ih =>
      by_cases hc : p.1 = c
      · exact ⟨p.2, by simp [getCol?, hc]⟩
      · simp only [colNames, List.map_cons, List.mem_cons] at h
        rcases h with h | h
        · exact absurd h.symm hc
        · obtain ⟨v, hv⟩ := ih h
          exact ⟨v, by simp [getCol?, hc, hv]⟩

theorem getCol?_restrictRows (df : DataFrame) (k : List ℕ) (c : String) :
    getCol? (restrictRows df k) c =
      (getCol? df c).map fun cells => k.map fun i => cells.getD i Cell.nan := by
  induction df with
  | nil => rfl
  | cons p rest ih =>
      show (if p.1 = c then some (k.map fun i => p.2.getD i Cell.nan)
          else getCol? (restrictRows rest k) c) =
        Option.map (fun cells => k.map fun i => cells.getD i Cell.nan)
          (if p.1 = c then some p.2 else getCol? rest c)
      by_cases hc : p.1 = c
      · rw [if_pos hc, if_pos hc]
        rfl
      · rw [if_neg hc, if_neg hc]
        exact ih

theorem selectCols_eq_some (df : DataFrame) (cols : List String)
    (h : ∀ c ∈ cols, (getCol? df c).isSome = true) :
    selectCols df cols = some (cols.map fun c => (c, (getCol? df c).getD [])) := by
  unfold selectCols
  rw [if_pos (List.all_eq_true.mpr h)]

theorem colNames_map_mk (cols : List String) (f : String → Col) :
    colNames (cols.map fun c => (c, f c)) = cols := by
  have hid : (Prod.fst ∘ fun c => (c, f c)) = id := funext fun c => rfl
  rw [colNames, List.map_map, hid, List.map_id]

theorem colNames_fillna0 (df : DataFrame) : colNames (fillna0 df) = colNames df := by
  simp [colNames, fillna0, List.map_map]

theorem colIsObject_fillCell (cells : Col) :
    colIsObject (cells.map fillCell) = colIsObject cells := by
  induction cells with
  | nil => rfl
  | cons x xs ih =>
      unfold colIsObject at ih ⊢
      rw [List.map_cons, List.any_cons, List.any_cons, ih]
      cases x <;> rfl

theorem colIsObject_restrict (cells : Col) (k : List ℕ)
    (h : colIsObject cells = false) :
    colIsObject (k.map fun i => cells.getD i Cell.nan) = false := by
  rw [colIsObject, List.any_eq_false]
  intro x hx
  rw [List.mem_map] at hx
  obtain ⟨i, -, rfl⟩ := hx
  rw [List.getD_eq_getElem?_getD]
  cases hi : cells[i]? with
  | none => simp
  | some v =>
      have hv : v ∈ cells := List.getElem?_mem hi
      rw [colIsObject, List.any_eq_false] at h
      simpa using h v hv

/-! ## Claim C1 -/

/-- Claim C1: `prepare_data` records `feature_columns` as the frame columns
outside the exclude list, in frame order; the training feature matrix has
exactly these columns (names and order) whenever no feature column is
object-typed (true of this pipeline, whose feature columns are all
numeric); and at each of the three inference sites — `get_forecast`,
`get_all_forecasts` and `make_predictions`, which all build
`X = df[forecaster.feature_columns].fillna(0)`, embedded once as `buildX` —
the resulting matrix has exactly the recorded columns, same names and same
order. -/
theorem feature_columns_alignment (train : DataFrame) (target : String)
    (tcell : Col) (ht : getCol? train target = some tcell)
    (hobj : ∀ c ∈ prepareFeatureColumns train target, ∀ cells,
      getCol? train c = some cells → colIsObject cells = false)
    (inf : DataFrame)
    (hinf : ∀ c ∈ prepareFeatureColumns train target,
      (getCol? inf c).isSome = true) :
    ∃ X y, prepareData train target =
        some (X, y, prepareFeatureColumns train target) ∧
      colNames X = prepareFeatureColumns train target ∧
      ∃ Xi, buildX inf (prepareFeatureColumns train target) = some Xi ∧
        colNames Xi = prepareFeatureColumns train target := by
  have hmemtrain : ∀ c ∈ prepareFeatureColumns train target, c ∈ colNames train := by
    intro c hc
    exact List.mem_of_mem_filter hc
  have hclean : ∀ c ∈ prepareFeatureColumns train target,
      (getCol? (restrictRows train (keepIdx tcell)) c).isSome = true := by
    intro c hc
    obtain ⟨v, hv⟩ := getCol?_isSome_of_mem_colNames train c (hmemtrain c hc)
    rw [getCol?_restrictRows, hv]
    rfl
  have hsel := selectCols_eq_some (restrictRows train (keepIdx tcell))
    (prepareFeatureColumns train target) hclean
  have hdrop : dropObjectCols (fillna0
      ((prepareFeatureColumns train target).map fun c =>
        (c, (getCol? (restrictRows train (keepIdx tcell)) c).getD []))) =
      fillna0 ((prepareFeatureColumns train target).map fun c =>
        (c, (getCol? (restrictRows train (keepIdx tcell)) c).getD [])) := by
    apply List.filter_eq_self.mpr
    intro p hp
    rw [fillna0, List.mem_map] at hp
    obtain ⟨q, hq, rfl⟩ := hp
    rw [List.mem_map] at hq
    obtain ⟨c, hc, rfl⟩ := hq
    obtain ⟨v, hv⟩ := getCol?_isSome_of_mem_colNames train c (hmemtrain c hc)
    have hobjc := hobj c hc v hv
    rw [getCol?_restrictRows, hv]
    simp only [Option.map_some, Option.getD_some]
    rw [Bool.not_eq_eq_eq_not, Bool.not_true, colIsObject_fillCell]
    exact colIsObject_restrict v (keepIdx tcell) hobjc
  refine ⟨dropObjectCols (fillna0
      ((prepareFeatureColumns train target).map fun c =>
        (c, (getCol? (restrictRows train (keepIdx tcell)) c).getD []))),
    (keepIdx tcell).map (fun i => tcell.getD i Cell.nan), ?_, ?_, ?_⟩
  · simp only [prepareData, ht, Option.bind_eq_bind, Option.some_bind, hsel]
    rfl
  · rw [hdrop, colNames_fillna0, colNames_map_mk]
  · have hselinf := selectCols_eq_some inf (prepareFeatureColumns train target) hinf
    refine ⟨fillna0 ((prepareFeatureColumns train target).map fun c =>
      (c, (getCol? inf c).getD [])), ?_, ?_⟩
    · rw [buildX, hselinf]
      rfl
    · rw [colNames_fillna0, colNames_map_mk]

/-- Witness for C1: training on a three-column frame whose only feature
column is `total`, then building the inference matrix on another frame. -/
theorem feature_columns_alignment_witness :
    getCol? [("lot_id", [Cell.text "a"]), ("total", [Cell.num 100]),
      ("occupancy_rate", [Cell.num 70])] "occupancy_rate" = some [Cell.num 70] ∧
    (∃ X y, prepareData [("lot_id", [Cell.text "a"]), ("total", [Cell.num 100]),
        ("occupancy_rate", [Cell.num 70])] "occupancy_rate" =
        some (X, y, prepareFeatureColumns
          [("lot_id", [Cell.text "a"]), ("total", [Cell.num 100]),
           ("occupancy_rate", [Cell.num 70])] "occupancy_rate") ∧
      colNames X = prepareFeatureColumns
        [("lot_id", [Cell.text "a"]), ("total", [Cell.num 100]),
         ("occupancy_rate", [Cell.num 70])] "occupancy_rate" ∧
      ∃ Xi, buildX [("total", [Cell.num 55])]
          (prepareFeatureColumns
            [("lot_id", [Cell.text "a"]), ("total", [Cell.num 100]),
             ("occupancy_rate", [Cell.num 70])] "occupancy_rate") = some Xi ∧
        colNames Xi = prepareFeatureColumns
          [("lot_id", [Cell.text "a"]), ("total", [Cell.num 100]),
           ("occupancy_rate", [Cell.num 70])] "occupancy_rate") := by
  refine ⟨rfl, feature_columns_alignment
    [("lot_id", [Cell.text "a"]), ("total", [Cell.num 100]),
     ("occupancy_rate", [Cell.num 70])] "occupancy_rate" [Cell.num 70] rfl
    ?_ [("total", [Cell.num 55])] (by decide)⟩
  intro c hc cells hcell
  have hc2 : c ∈ ["total"] := hc
  have hc3 : c = "total" := by simpa using hc2
  subst hc3
  have h2 : (some [Cell.num 100] : Option Col) = some cells := hcell
  injection h2 with h3
  rw [← h3]
  rfl

/-! ## Claim C8 -/

/-- Claim C8 counterexample: the feature functions assign generated columns
with `df[name] = ...`, which overwrites a pre-existing column of the same
name.  On a frame that already has an `occupancy_rate_lag_1` column holding
99, `add_lag_features` replaces it by the freshly computed lag (NaN on the
lot's first row), so an input column does not appear unchanged in the
result. -/
theorem frame_cex :
    addLagFeatures
      [("lot_id", [Cell.text "a"]), ("occupancy_rate", [Cell.num 50]),
       ("occupancy_rate_lag_1", [Cell.num 99])]
      "occupancy_rate" [1] (some "lot_id") =
      some [("lot_id", [Cell.text "a"]), ("occupancy_rate", [Cell.num 50]),
        ("occupancy_rate_lag_1", [Cell.nan])] ∧
    getCol? [("lot_id", [Cell.text "a"]), ("occupancy_rate", [Cell.num 50]),
      ("occupancy_rate_lag_1", [Cell.num 99])] "occupancy_rate_lag_1" =
      some [Cell.num 99] ∧
    getCol? [("lot_id", [Cell.text "a"]), ("occupancy_rate", [Cell.num 50]),
      ("occupancy_rate_lag_1", [Cell.nan])] "occupancy_rate_lag_1" =
      some [Cell.nan] ∧
    ([Cell.nan] : Col) ≠ [Cell.num 99] := by
  refine ⟨rfl, rfl, rfl, by simp⟩

/-- Claim C8 (amended): each of the four feature functions only adds or
overwrites the generated feature columns: every column of the input whose
name is not among the generated names appears in the result with unchanged
cells.  In this pure embedding the caller's input frame is itself a value
and is never mutated; the source achieves the same by operating on
`df.copy()`. -/
theorem feature_functions_frame (df : DataFrame) (ts gc tc : Col)
    (hts : getCol? df "timestamp" = some ts) (hdt : isDatetimeCol ts = true)
    (hg : getCol? df "lot_id" = some gc) (ht : getCol? df "occupancy_rate" = some tc)
    (lags windows : List ℕ)
    (hlnames : ∀ l ∈ lags, lagName "occupancy_rate" l ≠ "occupancy_rate" ∧
      lagName "occupancy_rate" l ≠ "lot_id")
    (hlnodup : (lags.map (lagName "occupancy_rate")).Nodup)
    (hrnames : ∀ w ∈ windows, ∀ n ∈ rollNames "occupancy_rate" w,
      n ≠ "occupancy_rate" ∧ n ≠ "lot_id")
    (hrnodup : (windows.flatMap (rollNames "occupancy_rate")).Nodup) :
    (∃ out, addTemporalFeatures df "timestamp" = some out ∧
      ∀ name, name ∉ temporalNames → getCol? out name = getCol? df name) ∧
    (∃ out, addLagFeatures df "occupancy_rate" lags (some "lot_id") = some out ∧
      ∀ name, name ∉ lags.map (lagName "occupancy_rate") →
        getCol? out name = getCol? df name) ∧
    (∃ out, addRollingFeatures df "occupancy_rate" windows (some "lot_id") =
        some out ∧
      ∀ name, name ∉ windows.flatMap (rollNames "occupancy_rate") →
        getCol? out name = getCol? df name) ∧
    (∃ out, createAllFeatures df "occupancy_rate" "timestamp" (some "lot_id") =
        some out ∧
      ∀ name, name ∉ allFeatureNames → getCol? out name = getCol? df name) := by
  obtain ⟨htmp, hframe0, -, -, -, -, -, -⟩ := addTemporal_props df ts hts
  refine ⟨⟨_, htmp, hframe0⟩, ?_, ?_, ?_⟩
  · obtain ⟨out, hout, -, -, hframe, -⟩ :=
      addLag_fold "lot_id" "occupancy_rate" gc tc lags df hg ht hlnames hlnodup
    exact ⟨out, hout, hframe⟩
  · obtain ⟨out, hout, -, -, hframe, -⟩ :=
      addRolling_fold "lot_id" "occupancy_rate" gc tc windows df hg ht
        hrnames hrnodup
    exact ⟨out, hout, hframe⟩
  · have hg1 : getCol? (setCols df (temporalWrites ts)) "lot_id" = some gc := by
      rw [hframe0 "lot_id" (by decide)]
      exact hg
    have ht1 : getCol? (setCols df (temporalWrites ts)) "occupancy_rate" =
        some tc := by
      rw [hframe0 "occupancy_rate" (by decide)]
      exact ht
    obtain ⟨out2, hout2, hog2, hot2, hframe2, -⟩ :=
      addLag_fold "lot_id" "occupancy_rate" gc tc [1, 2, 3, 6, 12, 24]
        (setCols df (temporalWrites ts)) hg1 ht1 (by decide) (by decide)
    obtain ⟨out3, hout3, -, -, hframe3, -⟩ :=
      addRolling_fold "lot_id" "occupancy_rate" gc tc [3, 6, 12, 24]
        out2 hog2 hot2 (by decide) (by decide)
    refine ⟨out3, ?_, ?_⟩
    · simp [createAllFeatures, htmp, hout2, hout3]
    · intro name hname
      rw [allFeatureNames, List.mem_append, not_or, List.mem_append, not_or]
        at hname
      rw [hframe3 name hname.2, hframe2 name hname.1.2, hframe0 name hname.1.1]

/-- Witness for the amended C8 on a one-row frame, with lag list [1] and
window list [3]. -/
theorem feature_functions_frame_witness :
    getCol? [("timestamp", [Cell.time ⟨8, 2, 15, 3, 2024, 11⟩]),
      ("lot_id", [Cell.text "a"]), ("occupancy_rate", [Cell.num 50])]
      "timestamp" = some [Cell.time ⟨8, 2, 15, 3, 2024, 11⟩] ∧
    (∃ out, addTemporalFeatures
        [("timestamp", [Cell.time ⟨8, 2, 15, 3, 2024, 11⟩]),
         ("lot_id", [Cell.text "a"]), ("occupancy_rate", [Cell.num 50])]
        "timestamp" = some out ∧
      ∀ name, name ∉ temporalNames → getCol? out name =
        getCol? [("timestamp", [Cell.time ⟨8, 2, 15, 3, 2024, 11⟩]),
          ("lot_id", [Cell.text "a"]), ("occupancy_rate", [Cell.num 50])] name) :=
  ⟨rfl, (feature_functions_frame
    [("timestamp", [Cell.time ⟨8, 2, 15, 3, 2024, 11⟩]),
     ("lot_id", [Cell.text "a"]), ("occupancy_rate", [Cell.num 50])]
    [Cell.time ⟨8, 2, 15, 3, 2024, 11⟩] [Cell.text "a"] [Cell.num 50]
    rfl rfl rfl rfl [1] [3] (by decide) (by decide) (by decide) (by decide)).1⟩

end ParkMonitor
